import Mathlib

/-!
# Verification of the local-RAG ingestion-to-answer pipeline

Shallow embedding of the core pipeline of `my-local-rag`:
document chunking (`src/document_processing/splitter.py`),
vector-store persistence semantics (`src/database/vector_store.py`,
`frontend/app.py`), multi-query retrieval expansion and fusion
(`src/retrieval/retriever.py`), and grounded answer synthesis
(`src/chains/rag_chain.py`).

Components whose deciding code lives in external libraries rather than in
the repository (the recursive text splitter internals, the multi-query
expansion/fusion algorithm, the vector search) are modelled from the
specification; each such definition carries a doc comment starting with
`Modelled from the spec:`.
-/

namespace RAG

/-! ## Configuration constants, from `src/config/settings.py` -/

/-- Constant `CHUNK_SIZE = 1200` from `src/config/settings.py`. -/
def CHUNK_SIZE : Nat := 1200

/-- Constant `CHUNK_OVERLAP = 300` from `src/config/settings.py`. -/
def CHUNK_OVERLAP : Nat := 300

/-- Constant `VECTOR_STORE_NAME = "simple-rag"` from `src/config/settings.py`. -/
def VECTOR_STORE_NAME : String := "simple-rag"

/-! ## Data model -/

/-- A chunk of a document, as stored in and retrieved from the vector
store: an identity, its text, and its sequence index within its source
document. Embedding vectors are abstracted away; similarity search is
parameterised by an opaque distance function instead. -/
structure Chunk where
  chunkId : Nat
  text : String
  seqIndex : Nat
deriving DecidableEq

/-- A persisted Chroma collection: its name and the chunks (with their
vectors, abstracted) committed at creation time. -/
structure Collection where
  name : String
  chunks : List Chunk
deriving DecidableEq

/-! ## Vector store, from `src/database/vector_store.py` -/

/-- The Python `ValueError` raised by `VectorStore.get_store`. -/
inductive PyError where
  | valueError (msg : String)
deriving DecidableEq

/-- Outcome of a `VectorStore.get_store` call: the returned collection or
the raised error, the persisted state after the call (`none` when nothing
is persisted at `PERSIST_DIRECTORY`), and how many chunk embeddings the
call computed. -/
structure StoreOutcome where
  result : Except PyError Collection
  state : Option Collection
  embedCalls : Nat

/-- Method `VectorStore.get_store` from `src/database/vector_store.py`:
if the persist directory exists, open and return the existing collection
unchanged (the `documents` argument is ignored and nothing is embedded);
otherwise, if a truthy (non-`None`, non-empty) documents list is given,
create the collection from it, embedding every document, and persist it;
otherwise raise `ValueError`. -/
def get_store (persisted : Option Collection) (documents : Option (List Chunk)) :
    StoreOutcome :=
  match persisted with
  | some c => ⟨Except.ok c, some c, 0⟩
  | none =>
    match documents with
    | some docs =>
      if docs.isEmpty then
        ⟨Except.error (PyError.valueError
          "No existing store found and no documents provided to create one."), none, 0⟩
      else
        ⟨Except.ok ⟨VECTOR_STORE_NAME, docs⟩, some ⟨VECTOR_STORE_NAME, docs⟩, docs.length⟩
    | none =>
      ⟨Except.error (PyError.valueError
        "No existing store found and no documents provided to create one."), none, 0⟩

/-- Function `clear_knowledge_base` from `frontend/app.py`: `shutil.rmtree` on
`PERSIST_DIRECTORY`, deleting the persisted collection location entirely. -/
def clear (_persisted : Option Collection) : Option Collection := none

/-- Modelled from the spec: `EmbeddingIndex.search` (the Chroma
similarity search, library code not in the repository) returns the
collection's chunks sorted by ascending distance to the query embedding,
ties broken by chunk sequence index, truncated to `top_k`. The distance
function stands for the opaque embedding service. -/
def search (c : Collection) (dist : Chunk → Nat) (k : Nat) : List Chunk :=
  (c.chunks.insertionSort
    (fun a b => dist a < dist b ∨ (dist a = dist b ∧ a.seqIndex ≤ b.seqIndex))).take k

/-! ## Chunker, from `src/document_processing/splitter.py` -/

/-- Error `SplitError` of the spec's error taxonomy: invalid chunking
configuration or empty input. -/
inductive SplitError where
  | invalidConfig
  | emptyInput
deriving DecidableEq

/-- Modelled from the spec: the hard character cut of the recursive
splitter (library code not in the repository) — for text with no natural
separator boundaries every produced segment is at most `size` characters
and each later chunk begins with the last `overlap` characters of its
predecessor; the final chunk may be shorter. The `size ≤ overlap` guard
never fires under the validity check of `splitText`. -/
def hardSplit (size overlap : Nat) (cs : List Char) : List (List Char) :=
  if cs.length ≤ size ∨ size ≤ overlap then [cs]
  else cs.take size :: hardSplit size overlap (cs.drop (size - overlap))
termination_by cs.length
decreasing_by
  rename_i h
  push_neg at h
  simp only [List.length_drop]
  omega

/-- Modelled from the spec: `Chunker.split` — `SplitError` if
`chunk_overlap ≥ chunk_size` or the input text is empty, otherwise the
chunks of the (boundary-free) text; never partial output. -/
def splitText (size overlap : Nat) (text : List Char) :
    Except SplitError (List (List Char)) :=
  if size ≤ overlap then Except.error SplitError.invalidConfig
  else if text = [] then Except.error SplitError.emptyInput
  else Except.ok (hardSplit size overlap text)

/-- Splitting a list of documents in sequence: the first failure aborts
with its error, otherwise all chunks are concatenated in document order. -/
def splitAll (size overlap : Nat) : List (List Char) → Except SplitError (List (List Char))
  | [] => Except.ok []
  | t :: ts =>
    match splitText size overlap t, splitAll size overlap ts with
    | Except.ok c, Except.ok rest => Except.ok (c ++ rest)
    | Except.error e, _ => Except.error e
    | Except.ok _, Except.error e => Except.error e

/-- Method `DocumentSplitter.split_documents` from
`src/document_processing/splitter.py`: returns the chunks of all
documents, or `None` when the underlying splitter fails (the wrapper
catches the exception and returns `None`, never partial output). -/
def split_documents (size overlap : Nat) (docs : List (List Char)) :
    Option (List (List Char)) :=
  match splitAll size overlap docs with
  | Except.ok chunks => some chunks
  | Except.error _ => none

/-! ## Query expansion, from `src/retrieval/retriever.py` -/

/-- The query-expansion prompt template of
`DocumentRetriever.create_retriever`, instantiated at a question. -/
def expansionPrompt (question : String) : String :=
  "You are an AI language model assistant. Your task is to generate five\ndifferent versions of the given user question to retrieve relevant documents from\na vector database. By generating multiple perspectives on the user question, your\ngoal is to help the user overcome some of the limitations of the distance-based\nsimilarity search. Provide these alternative questions separated by newlines.\nOriginal question: " ++ question

/-- Deduplicate a list of strings, first occurrence winning. -/
def dedupStrings : List String → List String
  | [] => []
  | s :: rest => s :: dedupStrings (rest.filter (fun t => t != s))
termination_by l => l.length
decreasing_by
  exact Nat.lt_succ_of_le (List.length_filter_le _ _)

/-- Whitespace characters stripped from the ends of a response line. -/
def isWS (c : Char) : Bool :=
  c = ' ' || c = '\t' || c = '\r' || c = '\n'

/-- Strip leading and trailing whitespace from a character list. -/
def trimChars (cs : List Char) : List Char :=
  ((cs.dropWhile isWS).reverse.dropWhile isWS).reverse

/-- Split a character list at newline characters, keeping empty pieces. -/
def splitLinesAux (cur : List Char) : List Char → List (List Char)
  | [] => [cur.reverse]
  | c :: rest =>
    if c = '\n' then cur.reverse :: splitLinesAux [] rest
    else splitLinesAux (c :: cur) rest

/-- Split a string into its lines. -/
def splitLines (s : String) : List String :=
  (splitLinesAux [] s.toList).map (fun cs => String.mk (trimChars cs))

/-- Modelled from the spec: parsing of the generative model's expansion
response (library code not in the repository) — split on line breaks,
trim whitespace, discard empty lines, deduplicate exact repeats. -/
def parseVariantLines (response : String) : List String :=
  dedupStrings ((splitLines response).filter (fun l => l != ""))

/-- Modelled from the spec: `QueryExpander.expand` (library code not in
the repository) — invoke the generative model once on the expansion
prompt (`none` models an invocation failure); on failure fall back to
`[question]`, otherwise the original question always comes first,
followed by the parsed variants with exact repeats removed. -/
def expand (gen : String → Option String) (question : String) : List String :=
  match gen (expansionPrompt question) with
  | none => [question]
  | some response => dedupStrings (question :: parseVariantLines response)

/-! ## Retrieval fusion, from `src/retrieval/retriever.py` -/

/-- Deduplicate chunks by `chunkId`, first occurrence winning, preserving
the order of first occurrences. -/
def dedupById : List Chunk → List Chunk
  | [] => []
  | c :: rest => c :: dedupById (rest.filter (fun d => d.chunkId != c.chunkId))
termination_by l => l.length
decreasing_by
  exact Nat.lt_succ_of_le (List.length_filter_le _ _)

/-- Modelled from the spec: the fusion step of the multi-query retriever
(library code not in the repository) — union of the per-variant search
results, flattened in variant-list order (rank order within each
variant), deduplicated by chunk identity with first occurrence winning. -/
def fuseResults (results : List (List Chunk)) : List Chunk :=
  dedupById results.flatten

/-- Error `RetrievalError`: all variant searches failed. -/
inductive RetrievalError where
  | allFailed
deriving DecidableEq

/-- A single variant search failure (embedding/search service error). -/
inductive SearchError where
  | searchFailed
deriving DecidableEq

/-- Modelled from the spec: `Retriever.retrieve` (library code not in the
repository) — run the search for every variant, drop the failed variants,
propagate `RetrievalError` when every variant search failed, and
otherwise fuse the successful variants' results. -/
def retrieve (searchFn : String → Except SearchError (List Chunk))
    (variants : List String) : Except RetrievalError (List Chunk) :=
  if (variants.filterMap (fun v => (searchFn v).toOption)).isEmpty then
    Except.error RetrievalError.allFailed
  else
    Except.ok (fuseResults (variants.filterMap (fun v => (searchFn v).toOption)))

/-! ## Answer synthesis, from `src/chains/rag_chain.py` -/

/-- Modelled from the spec: the chain's formatting of the retrieved
context chunks into the prompt's `{context}` slot — the chunk texts
concatenated in fusion order. -/
def formatContext (chunks : List Chunk) : String :=
  String.join (chunks.map Chunk.text)

/-- The prompt template of `RAGChain._create_chain`, instantiated at a
context string and a question. -/
def ragTemplate (context question : String) : String :=
  "Answer the question based ONLY on the following context: " ++ context ++
  "\n            Question: " ++ question ++
  "\n            " ++
  "Answer the question and ONLY use information from the provided context. If you cannot answer the question based on the context, say so. " ++
  "\n            Make sure to be precise and concise in your answer.\n        "

/-- Methods `RAGChain.run` and `_create_chain` from `src/chains/rag_chain.py`:
build the single grounding prompt from the retrieved context and the
question, pipe it through the generative model, and return the model's
raw string output. The second component records the prompts sent to the
generative model (the chain contains exactly one model invocation). -/
def synthesize (gen : String → String) (question : String)
    (contextChunks : List Chunk) : String × List String :=
  (gen (ragTemplate (formatContext contextChunks) question),
   [ragTemplate (formatContext contextChunks) question])

/-! ## Sample data for concrete instantiations -/

/-- A sample chunk. -/
def chA : Chunk := ⟨0, "alpha", 0⟩

/-- A sample chunk. -/
def chB : Chunk := ⟨1, "beta", 1⟩

/-- A sample chunk distinct from `chA` and `chB`. -/
def chC : Chunk := ⟨2, "gamma", 2⟩

/-- A sample collection persisted from documents `{A, B}`. -/
def colAB : Collection := ⟨VECTOR_STORE_NAME, [chA, chB]⟩

/-! ## Helper lemmas -/

/-- Everything returned by `search` is a chunk of the collection. -/
theorem mem_chunks_of_mem_search (c : Collection) (dist : Chunk → Nat) (k : Nat)
    (x : Chunk) (hx : x ∈ search c dist k) : x ∈ c.chunks := by
  have h1 : x ∈ c.chunks.insertionSort
      (fun a b => dist a < dist b ∨ (dist a = dist b ∧ a.seqIndex ≤ b.seqIndex)) :=
    List.take_subset _ _ hx
  exact (List.perm_insertionSort _ _).subset h1

/-! ## C1, C8, C10: vector-store persistence semantics -/

/-- C1: `get_or_create` (`VectorStore.get_store`) is idempotent with
respect to an existing persisted collection: for every `documents`
argument, the call returns the existing collection unchanged, leaves the
persisted state untouched, computes no embeddings, and a subsequent
`search` only ever returns chunks of the existing collection — never a
chunk supplied only in the repeated call. -/
theorem get_store_idempotent_on_existing (c : Collection)
    (documents : Option (List Chunk)) (dist : Chunk → Nat) (k : Nat) :
    get_store (some c) documents = ⟨Except.ok c, some c, 0⟩ ∧
    (∀ x, x ∈ search c dist k → x ∈ c.chunks) ∧
    (∀ x, x ∉ c.chunks → x ∉ search c dist k) := by
  refine ⟨rfl, fun x hx => mem_chunks_of_mem_search c dist k x hx, ?_⟩
  intro x hx hmem
  exact hx (mem_chunks_of_mem_search c dist k x hmem)

/-- Witness for C1: repeating `get_or_create` on the collection persisted
from `{A, B}` with documents `{A, B, C}` returns the existing collection
with zero embeddings, and `C`'s chunk is never returned by a search. -/
theorem get_store_idempotent_on_existing_witness :
    get_store (some colAB) (some [chA, chB, chC]) = ⟨Except.ok colAB, some colAB, 0⟩ ∧
    chC ∉ search colAB (fun d => d.chunkId) 5 :=
  ⟨(get_store_idempotent_on_existing colAB (some [chA, chB, chC]) (fun d => d.chunkId) 5).1,
   (get_store_idempotent_on_existing colAB (some [chA, chB, chC]) (fun d => d.chunkId) 5).2.2
     chC (by decide)⟩

/-- C10: `VectorStore.get_store` raises `ValueError` exactly when no
persisted collection exists and the documents argument is `None` or the
empty list; in that case nothing is persisted, and any collection that
the call ever persists anew comes from a non-empty documents list. -/
theorem get_store_valueError_iff (documents : Option (List Chunk)) :
    ((∃ m, (get_store none documents).result = Except.error (PyError.valueError m)) ↔
      (documents = none ∨ documents = some [])) ∧
    ((documents = none ∨ documents = some []) → (get_store none documents).state = none) ∧
    (∀ persisted c, (get_store persisted documents).state = some c →
      persisted = some c ∨
      (persisted = none ∧ ∃ docs, documents = some docs ∧ docs ≠ [] ∧
        c = ⟨VECTOR_STORE_NAME, docs⟩)) := by
  refine ⟨?_, ?_, ?_⟩
  · constructor
    · intro ⟨m, hm⟩
      match documents with
      | none => exact Or.inl rfl
      | some docs =>
        match docs with
        | [] => exact Or.inr rfl
        | d :: ds => simp [get_store] at hm
    · intro h
      rcases h with h | h <;> subst h <;> exact ⟨_, rfl⟩
  · intro h
    rcases h with h | h <;> subst h <;> rfl
  · intro persisted c hc
    match persisted with
    | some p =>
      simp only [get_store] at hc
      exact Or.inl (by rw [Option.some_inj] at hc; rw [hc])
    | none =>
      refine Or.inr ⟨rfl, ?_⟩
      match documents with
      | none => simp [get_store] at hc
      | some docs =>
        match docs, hc with
        | [], hc => simp [get_store] at hc
        | d :: ds, hc =>
          refine ⟨d :: ds, rfl, by simp, ?_⟩
          simp [get_store] at hc
          exact hc.symm

/-- Witness for C10: with no persisted collection and an empty documents
list, `get_store` raises `ValueError` and persists nothing. -/
theorem get_store_valueError_iff_witness :
    (∃ m, (get_store none (some ([] : List Chunk))).result =
      Except.error (PyError.valueError m)) ∧
    (get_store none (some ([] : List Chunk))).state = none :=
  ⟨(get_store_valueError_iff (some [])).1.mpr (Or.inr rfl),
   (get_store_valueError_iff (some [])).2.1 (Or.inr rfl)⟩

/-- C8: `clear` deletes the persisted collection location entirely, and a
subsequent `get_or_create` with non-empty documents `{A}` creates a
brand-new collection holding exactly those chunks; every later search over
it returns only `{A}`'s chunks, never leftovers of the prior collection. -/
theorem clear_then_get_store_fresh (persisted : Option Collection)
    (docs : List Chunk) (h : docs ≠ []) (dist : Chunk → Nat) (k : Nat) :
    clear persisted = none ∧
    get_store (clear persisted) (some docs) =
      ⟨Except.ok ⟨VECTOR_STORE_NAME, docs⟩, some ⟨VECTOR_STORE_NAME, docs⟩,
       docs.length⟩ ∧
    (∀ x, x ∈ search ⟨VECTOR_STORE_NAME, docs⟩ dist k → x ∈ docs) := by
  refine ⟨rfl, ?_, fun x hx => mem_chunks_of_mem_search _ dist k x hx⟩
  simp only [clear, get_store, List.isEmpty_eq_true]
  rw [if_neg h]

/-- Witness for C8: after `clear`, `get_or_create` with `{A}` builds a
collection containing only `A`'s chunk, and the prior collection's chunk
`B` is not retrievable. -/
theorem clear_then_get_store_fresh_witness :
    get_store (clear (some colAB)) (some [chA]) =
      ⟨Except.ok ⟨VECTOR_STORE_NAME, [chA]⟩, some ⟨VECTOR_STORE_NAME, [chA]⟩, 1⟩ ∧
    ∀ x, x ∈ search ⟨VECTOR_STORE_NAME, [chA]⟩ (fun d => d.chunkId) 3 → x ∈ [chA] :=
  ⟨(clear_then_get_store_fresh (some colAB) [chA] (by decide) (fun d => d.chunkId) 3).2.1,
   (clear_then_get_store_fresh (some colAB) [chA] (by decide) (fun d => d.chunkId) 3).2.2⟩

/-! ## C6, C7: chunker -/

/-- If any document in the list fails to split, the sequential split of
the whole list fails. -/
theorem splitAll_error_of_mem (size overlap : Nat) (text : List Char)
    (docs : List (List Char)) (hmem : text ∈ docs)
    (herr : ∃ e, splitText size overlap text = Except.error e) :
    ∃ e, splitAll size overlap docs = Except.error e := by
  induction docs with
  | nil => cases hmem
  | cons t ts ih =>
    rcases List.mem_cons.mp hmem with heq | hmem'
    · subst heq
      obtain ⟨e, he⟩ := herr
      refine ⟨e, ?_⟩
      simp only [splitAll, he]
    · obtain ⟨e', he'⟩ := ih hmem'
      cases h1 : splitText size overlap t with
      | error e1 => exact ⟨e1, by simp only [splitAll, h1]⟩
      | ok c => exact ⟨e', by simp only [splitAll, h1, he']⟩

/-- C6: the chunker's split fails with a typed `SplitError` whenever
`chunk_overlap ≥ chunk_size` or the input text is empty; it returns an
error, never any (partial) chunk output, and the `split_documents`
wrapper consequently returns `None` for any document list containing
such a text. -/
theorem splitText_error_on_invalid (size overlap : Nat) (text : List Char)
    (h : overlap ≥ size ∨ text = []) :
    (∃ e, splitText size overlap text = Except.error e) ∧
    (∀ chunks, splitText size overlap text ≠ Except.ok chunks) ∧
    (∀ docs, text ∈ docs → split_documents size overlap docs = none) := by
  have herr : ∃ e, splitText size overlap text = Except.error e := by
    by_cases hc : size ≤ overlap
    · exact ⟨SplitError.invalidConfig, by simp [splitText, hc]⟩
    · have htext : text = [] := by
        rcases h with h | h
        · exact absurd h hc
        · exact h
      exact ⟨SplitError.emptyInput, by simp [splitText, htext]; omega⟩
  refine ⟨herr, ?_, ?_⟩
  · intro chunks hok
    obtain ⟨e, he⟩ := herr
    rw [hok] at he
    cases he
  · intro docs hmem
    obtain ⟨e, he⟩ := splitAll_error_of_mem size overlap text docs hmem herr
    simp [split_documents, he]

/-- Witness for C6: with `chunk_overlap = chunk_size = 1200` the split of
`"a"` errors and `split_documents` returns `None`. -/
theorem splitText_error_on_invalid_witness :
    (∃ e, splitText 1200 1200 ['a'] = Except.error e) ∧
    split_documents 1200 1200 [['a']] = none :=
  ⟨(splitText_error_on_invalid 1200 1200 ['a'] (Or.inl (by decide))).1,
   (splitText_error_on_invalid 1200 1200 ['a'] (Or.inl (by decide))).2.2
     [['a']] (by simp)⟩

/-- A 3000-character text with no separator boundaries hard-splits at
`chunk_size = 1200`, `chunk_overlap = 300` into exactly the three
segments `[0,1200)`, `[900,2100)`, `[1800,3000)`. -/
theorem hardSplit_length_3000 (cs : List Char) (h : cs.length = 3000) :
    hardSplit 1200 300 cs = [cs.take 1200, (cs.drop 900).take 1200, cs.drop 1800] := by
  rw [hardSplit, if_neg (by omega)]
  norm_num
  rw [hardSplit, if_neg (by simp only [List.length_drop]; omega)]
  norm_num
  rw [hardSplit, if_pos (Or.inl (by simp only [List.length_drop]; omega))]

/-- Counterexample for C7: splitting the 3000-character boundary-free
document `'a' * 3000` with `chunk_size = 1200`, `chunk_overlap = 300`
does not produce chunks of lengths `[1200, 1200, 600]`. -/
theorem splitter_3000_claim_counterexample :
    ¬ ∃ chunks, splitText CHUNK_SIZE CHUNK_OVERLAP (List.replicate 3000 'a') =
        Except.ok chunks ∧ chunks.map List.length = [1200, 1200, 600] := by
  rintro ⟨chunks, hok, hlen⟩
  have h3000 : (List.replicate 3000 'a').length = 3000 := by
    rw [List.length_replicate]
  have hne : List.replicate 3000 'a' ≠ ([] : List Char) := by
    intro hnil
    rw [hnil] at h3000
    simp at h3000
  have hval : splitText CHUNK_SIZE CHUNK_OVERLAP (List.replicate 3000 'a') =
      Except.ok (hardSplit 1200 300 (List.replicate 3000 'a')) := by
    simp only [splitText, CHUNK_SIZE, CHUNK_OVERLAP]
    rw [if_neg (by omega), if_neg hne]
  rw [hval] at hok
  have hchunks : chunks = hardSplit 1200 300 (List.replicate 3000 'a') :=
    (Except.ok.injEq _ _).mp hok.symm
  rw [hchunks, hardSplit_length_3000 _ h3000] at hlen
  simp only [List.map_cons, List.map_nil, List.length_take, List.length_drop,
    List.length_replicate] at hlen
  exact absurd hlen (by decide)

/-- C7 (amended): with `chunk_size = 1200` and `chunk_overlap = 300`, a
3000-character document with no natural separator boundaries yields
exactly 3 chunks of lengths `[1200, 1200, 1200]`, each later chunk
beginning with the last 300 characters of its predecessor. -/
theorem splitter_3000_amended (cs : List Char) (h : cs.length = 3000) :
    splitText CHUNK_SIZE CHUNK_OVERLAP cs =
      Except.ok [cs.take 1200, (cs.drop 900).take 1200, cs.drop 1800] ∧
    (hardSplit 1200 300 cs).map List.length = [1200, 1200, 1200] ∧
    ((cs.drop 900).take 1200).take 300 = (cs.take 1200).drop 900 ∧
    (cs.drop 1800).take 300 = ((cs.drop 900).take 1200).drop 900 := by
  have hne : cs ≠ [] := by
    intro hnil
    rw [hnil] at h
    simp at h
  refine ⟨?_, ?_, ?_, ?_⟩
  · simp only [splitText, CHUNK_SIZE, CHUNK_OVERLAP]
    rw [if_neg (by omega), if_neg hne, hardSplit_length_3000 cs h]
  · rw [hardSplit_length_3000 cs h]
    simp only [List.map_cons, List.map_nil, List.length_take, List.length_drop, h]
    norm_num
  · rw [List.take_take, List.drop_take]
    congr 1
  · rw [List.drop_take, List.drop_drop]

/-- Witness for C7 (amended): concrete instantiation at `'a' * 3000`. -/
theorem splitter_3000_amended_witness :
    splitText CHUNK_SIZE CHUNK_OVERLAP (List.replicate 3000 'a') =
      Except.ok [(List.replicate 3000 'a').take 1200,
        ((List.replicate 3000 'a').drop 900).take 1200,
        (List.replicate 3000 'a').drop 1800] ∧
    (hardSplit 1200 300 (List.replicate 3000 'a')).map List.length = [1200, 1200, 1200] :=
  ⟨(splitter_3000_amended (List.replicate 3000 'a') (by rw [List.length_replicate])).1,
   (splitter_3000_amended (List.replicate 3000 'a') (by rw [List.length_replicate])).2.1⟩

/-! ## C3, C4, C5: query expansion and retrieval failure policy -/

/-- Unfolding lemma: deduplication of the empty list. -/
theorem dedupStrings_nil : dedupStrings [] = [] := by
  rw [dedupStrings.eq_def]

/-- Unfolding lemma: deduplication keeps the head and recurses on the
tail with the head's duplicates removed. -/
theorem dedupStrings_cons (s : String) (rest : List String) :
    dedupStrings (s :: rest) = s :: dedupStrings (rest.filter (fun t => t != s)) := by
  rw [dedupStrings.eq_def]

/-- Unfolding lemma: deduplication by chunk id of the empty list. -/
theorem dedupById_nil : dedupById [] = [] := by
  rw [dedupById.eq_def]

/-- Unfolding lemma: deduplication by chunk id keeps the head and
recurses on the tail with chunks of the same id removed. -/
theorem dedupById_cons (c : Chunk) (rest : List Chunk) :
    dedupById (c :: rest) = c :: dedupById (rest.filter (fun d => d.chunkId != c.chunkId)) := by
  rw [dedupById.eq_def]

/-- C3: for every question and every generative-model behaviour, the
expanded query set includes the original question as its first variant. -/
theorem expand_head_is_original (gen : String → Option String) (question : String) :
    (expand gen question).head? = some question ∧ question ∈ expand gen question := by
  unfold expand
  cases gen (expansionPrompt question) with
  | none => simp
  | some response =>
    show (dedupStrings (question :: parseVariantLines response)).head? = some question ∧
      question ∈ dedupStrings (question :: parseVariantLines response)
    rw [dedupStrings_cons]
    simp

/-- An `Except.toOption` is `none` exactly on errors. -/
theorem except_toOption_eq_none_iff (x : Except SearchError (List Chunk)) :
    x.toOption = none ↔ ∃ e, x = Except.error e := by
  cases x with
  | ok r => simp [Except.toOption]
  | error e =>
    simp only [Except.toOption]
    constructor
    · intro _
      exact ⟨e, by simp⟩
    · intro _
      simp

/-- C5: `retrieve` propagates `RetrievalError` exactly when every variant
search fails; whenever at least one variant search succeeds it returns
the fused union of the successful variants' results. -/
theorem retrieve_error_iff_all_fail (f : String → Except SearchError (List Chunk))
    (variants : List String) :
    ((retrieve f variants = Except.error RetrievalError.allFailed) ↔
      ∀ v ∈ variants, ∃ e, f v = Except.error e) ∧
    ((∃ v ∈ variants, ∃ r, f v = Except.ok r) →
      retrieve f variants =
        Except.ok (fuseResults (variants.filterMap (fun v => (f v).toOption)))) := by
  have hnil : (variants.filterMap (fun v => (f v).toOption)) = [] ↔
      ∀ v ∈ variants, ∃ e, f v = Except.error e := by
    rw [List.filterMap_eq_nil_iff]
    constructor
    · intro h v hv
      exact (except_toOption_eq_none_iff (f v)).mp (h v hv)
    · intro h v hv
      exact (except_toOption_eq_none_iff (f v)).mpr (h v hv)
  constructor
  · constructor
    · intro hret
      rw [← hnil]
      by_contra hne
      have hfalse : (variants.filterMap (fun v => (f v).toOption)).isEmpty = false := by
        rw [List.isEmpty_eq_false]
        exact hne
      unfold retrieve at hret
      rw [hfalse] at hret
      cases hret
    · intro hall
      unfold retrieve
      rw [hnil.mpr hall]
      rfl
  · rintro ⟨v, hv, r, hr⟩
    have hmem : r ∈ variants.filterMap (fun v => (f v).toOption) :=
      List.mem_filterMap.mpr ⟨v, hv, by simp [hr, Except.toOption]⟩
    have hfalse : (variants.filterMap (fun v => (f v).toOption)).isEmpty = false := by
      rw [List.isEmpty_eq_false]
      intro hemp
      rw [hemp] at hmem
      cases hmem
    unfold retrieve
    rw [hfalse]
    simp

/-- Witness for C5: with one succeeding variant among two, `retrieve`
returns the successful variant's (fused) results. -/
theorem retrieve_error_iff_all_fail_witness :
    retrieve (fun v => if v = "q" then Except.ok [chA] else
      Except.error SearchError.searchFailed) ["q", "other"] = Except.ok [chA] := by
  have h := (retrieve_error_iff_all_fail
    (fun v => if v = "q" then Except.ok [chA] else Except.error SearchError.searchFailed)
    ["q", "other"]).2 ⟨"q", by simp, [chA], by simp⟩
  rw [h]
  simp [fuseResults, Except.toOption, dedupById]

/-- C4: if the generative call fails or yields zero usable lines, the
expansion falls back to exactly `[question]`, and retrieval proceeds as
single-query search (succeeding whenever the single search succeeds)
instead of failing the pipeline. -/
theorem expand_fallback_single_query (gen : String → Option String) (question : String)
    (h : gen (expansionPrompt question) = none ∨
      ∃ response, gen (expansionPrompt question) = some response ∧
        parseVariantLines response = []) :
    expand gen question = [question] ∧
    (∀ f : String → Except SearchError (List Chunk),
      retrieve f (expand gen question) = retrieve f [question]) ∧
    (∀ f : String → Except SearchError (List Chunk), ∀ r, f question = Except.ok r →
      retrieve f (expand gen question) = Except.ok (dedupById r)) := by
  have hexp : expand gen question = [question] := by
    rcases h with h | ⟨response, hresp, hparse⟩
    · unfold expand
      rw [h]
    · have hsome : expand gen question =
          dedupStrings (question :: parseVariantLines response) := by
        unfold expand
        rw [hresp]
      rw [hsome, hparse, dedupStrings_cons, List.filter_nil, dedupStrings_nil]
  refine ⟨hexp, fun f => by rw [hexp], ?_⟩
  intro f r hr
  rw [hexp]
  unfold retrieve
  simp only [List.filterMap_cons, List.filterMap_nil, hr, Except.toOption]
  simp [fuseResults]

/-- Witness for C4: a generative model returning the empty string yields
`expand = [question]`, and retrieval degrades to the single search. -/
theorem expand_fallback_single_query_witness :
    expand (fun _ => some "") "q" = ["q"] ∧
    retrieve (fun _ => Except.ok [chA]) (expand (fun _ => some "") "q") =
      Except.ok (dedupById [chA]) :=
  ⟨(expand_fallback_single_query (fun _ => some "") "q"
      (Or.inr ⟨"", rfl, by simp [parseVariantLines, splitLines, splitLinesAux,
        trimChars, dedupStrings]⟩)).1,
   (expand_fallback_single_query (fun _ => some "") "q"
      (Or.inr ⟨"", rfl, by simp [parseVariantLines, splitLines, splitLinesAux,
        trimChars, dedupStrings]⟩)).2.2
     (fun _ => Except.ok [chA]) [chA] rfl⟩

/-! ## C2: fusion characterization -/

/-- Deduplication by chunk id is a sublist of its input: it preserves the
relative order of the occurrences it keeps. -/
theorem dedupById_sublist (l : List Chunk) : List.Sublist (dedupById l) l := by
  induction l using dedupById.induct with
  | case1 =>
    rw [dedupById_nil]
  | case2 c rest ih =>
    rw [dedupById_cons]
    exact (ih.trans (List.filter_sublist _)).cons₂ c

/-- First occurrence wins: for every chunk id, the deduplicated list
keeps exactly the first input occurrence of that id. -/
theorem dedupById_filter_eq (l : List Chunk) (i : Nat) :
    (dedupById l).filter (fun d => d.chunkId == i) =
      (l.filter (fun d => d.chunkId == i)).take 1 := by
  induction l using dedupById.induct with
  | case1 =>
    rw [dedupById_nil]
    simp
  | case2 c rest ih =>
    rw [dedupById_cons]
    by_cases hc : c.chunkId = i
    · subst hc
      have hnone : (dedupById (rest.filter (fun d => d.chunkId != c.chunkId))).filter
          (fun d => d.chunkId == c.chunkId) = [] := by
        rw [List.filter_eq_nil_iff]
        intro a ha
        have hmem : a ∈ rest.filter (fun d => d.chunkId != c.chunkId) :=
          (dedupById_sublist _).subset ha
        have hne := (List.mem_filter.mp hmem).2
        simp only [bne_iff_ne, ne_eq] at hne
        simp [hne]
      rw [List.filter_cons, List.filter_cons]
      simp [hnone]
    · have hcb : (c.chunkId == i) = false := by
        simp [hc]
      rw [List.filter_cons, List.filter_cons, hcb]
      simp only [Bool.false_eq_true, if_false]
      rw [ih]
      congr 1
      rw [List.filter_filter]
      apply List.filter_congr
      intro a _
      by_cases ha : a.chunkId = i
      · have h1 : (a.chunkId == i) = true := by
          simp [ha]
        have h2 : (a.chunkId != c.chunkId) = true := by
          simp only [bne_iff_ne, ne_eq, ha]
          exact fun hci => hc hci.symm
        rw [h1, h2]
        simp
      · have h1 : (a.chunkId == i) = false := by
          simp [ha]
        rw [h1]
        simp

/-- The deduplicated list has pairwise distinct chunk ids. -/
theorem dedupById_ids_nodup (l : List Chunk) :
    ((dedupById l).map (fun d => d.chunkId)).Nodup := by
  induction l using dedupById.induct with
  | case1 =>
    rw [dedupById_nil]
    simp
  | case2 c rest ih =>
    rw [dedupById_cons]
    simp only [List.map_cons, List.nodup_cons]
    refine ⟨?_, ih⟩
    intro hmem
    obtain ⟨d, hd, hid⟩ := List.mem_map.mp hmem
    have hmem2 : d ∈ rest.filter (fun x => x.chunkId != c.chunkId) :=
      (dedupById_sublist _).subset hd
    have hne := (List.mem_filter.mp hmem2).2
    rw [hid] at hne
    simp at hne

/-- Union: every chunk id occurring in the input still occurs in the
deduplicated output. -/
theorem dedupById_complete (l : List Chunk) (x : Chunk) (hx : x ∈ l) :
    ∃ d ∈ dedupById l, d.chunkId = x.chunkId := by
  have h1 : x ∈ l.filter (fun d => d.chunkId == x.chunkId) :=
    List.mem_filter.mpr ⟨hx, by simp⟩
  have h2 : l.filter (fun d => d.chunkId == x.chunkId) ≠ [] := by
    intro hnil
    rw [hnil] at h1
    cases h1
  obtain ⟨d, ds, hds⟩ := List.exists_cons_of_ne_nil h2
  have h3 : (dedupById l).filter (fun d => d.chunkId == x.chunkId) = [d] := by
    rw [dedupById_filter_eq, hds]
    rfl
  have hd : d ∈ (dedupById l).filter (fun d => d.chunkId == x.chunkId) := by
    rw [h3]
    exact List.mem_singleton.mpr rfl
  have hsplit := List.mem_filter.mp hd
  exact ⟨d, hsplit.1, by simpa using hsplit.2⟩

/-- C2: the fusion step is a union of all variants' search results
deduplicated by chunk identity with first occurrence winning — the fused
sequence is a sublist of the flattened results (variant-list order first,
intra-variant rank second), keeps exactly the first occurrence of each
chunk id, has pairwise distinct chunk ids, covers every input chunk id,
and is a deterministic function of the per-variant results. -/
theorem fusion_characterization (results : List (List Chunk)) :
    List.Sublist (fuseResults results) results.flatten ∧
    (∀ i : Nat, (fuseResults results).filter (fun d => d.chunkId == i) =
      (results.flatten.filter (fun d => d.chunkId == i)).take 1) ∧
    ((fuseResults results).map (fun d => d.chunkId)).Nodup ∧
    (∀ x ∈ results.flatten, ∃ d ∈ fuseResults results, d.chunkId = x.chunkId) ∧
    (∀ other : List (List Chunk), other = results →
      fuseResults other = fuseResults results) :=
  ⟨dedupById_sublist _, fun i => dedupById_filter_eq _ i, dedupById_ids_nodup _,
   fun x hx => dedupById_complete _ x hx, fun _ h => by rw [h]⟩

/-- Witness for C2: fusing `[[A], [A, B]]` keeps the first occurrence of
`A`, stays in variant order, and covers `B`. -/
theorem fusion_characterization_witness :
    List.Sublist (fuseResults [[chA], [chA, chB]]) [[chA], [chA, chB]].flatten ∧
    (∃ d ∈ fuseResults [[chA], [chA, chB]], d.chunkId = chB.chunkId) :=
  ⟨(fusion_characterization [[chA], [chA, chB]]).1,
   (fusion_characterization [[chA], [chA, chB]]).2.2.2.1 chB (by simp)⟩

/-! ## C9: answer synthesis -/

/-- C9: for every question and context-chunk sequence, `synthesize`
builds a single prompt embedding the concatenated context-chunk texts (in
fusion order) and the question together with the explicit instruction to
answer only from the supplied context and to say so when it cannot,
invokes the generative model exactly once, and returns the model's raw
text output as the answer. -/
theorem synthesize_single_grounded_prompt (gen : String → String) (question : String)
    (contextChunks : List Chunk) :
    (synthesize gen question contextChunks).1 =
      gen (ragTemplate (formatContext contextChunks) question) ∧
    (synthesize gen question contextChunks).2 =
      [ragTemplate (formatContext contextChunks) question] ∧
    (synthesize gen question contextChunks).2.length = 1 ∧
    formatContext contextChunks = String.join (contextChunks.map Chunk.text) ∧
    (∃ pre post, ragTemplate (formatContext contextChunks) question =
      pre ++ (formatContext contextChunks ++ post)) ∧
    (∃ pre post, ragTemplate (formatContext contextChunks) question =
      pre ++ (question ++ post)) ∧
    (∃ pre post, ragTemplate (formatContext contextChunks) question =
      pre ++ ("Answer the question and ONLY use information from the provided context. If you cannot answer the question based on the context, say so. " ++ post)) := by
  refine ⟨rfl, rfl, rfl, rfl, ?_, ?_, ?_⟩
  · refine ⟨"Answer the question based ONLY on the following context: ",
      "\n            Question: " ++ question ++ "\n            " ++
      "Answer the question and ONLY use information from the provided context. If you cannot answer the question based on the context, say so. " ++
      "\n            Make sure to be precise and concise in your answer.\n        ", ?_⟩
    simp only [ragTemplate, String.append_assoc]
  · refine ⟨"Answer the question based ONLY on the following context: " ++
      formatContext contextChunks ++ "\n            Question: ",
      "\n            " ++
      "Answer the question and ONLY use information from the provided context. If you cannot answer the question based on the context, say so. " ++
      "\n            Make sure to be precise and concise in your answer.\n        ", ?_⟩
    simp only [ragTemplate, String.append_assoc]
  · refine ⟨"Answer the question based ONLY on the following context: " ++
      formatContext contextChunks ++ "\n            Question: " ++ question ++
      "\n            ",
      "\n            Make sure to be precise and concise in your answer.\n        ", ?_⟩
    simp only [ragTemplate, String.append_assoc]

end RAG
